import Mathlib

/-!
Verification of the state and learning-accumulation subsystem of the intern
repository (src/agent.py and src/ideas/analyze_ideas.py) against its
natural-language specification.  The Python code is shallowly embedded:
JSON values parsed by json.loads become the inductive type Json, the
in-memory history dict becomes the Ledger structure, and each operation
(load_history, save_history, compress_learnings, generate_and_evaluate_idea,
merge_batch_results, the top-ideas sort) becomes a pure Lean function whose
extra components make the side effects (oracle calls, file writes) explicit.
-/

namespace Intern

/-- JSON values as produced by Python json.loads: null, booleans, numbers
(modelled as integers; no claim involves fractional values), strings,
arrays, and objects with insertion-ordered unique keys. -/
inductive Json where
  | null : Json
  | bool (b : Bool) : Json
  | num (n : Int) : Json
  | str (s : String) : Json
  | arr (xs : List Json) : Json
  | obj (kvs : List (String × Json)) : Json

/-- First-match association lookup, modelling Python dict indexing
(keys of a parsed JSON object are unique, so first match is the match). -/
def jsonLookup : List (String × Json) → String → Option Json
  | [], _ => none
  | (k, v) :: kvs, key => if k = key then some v else jsonLookup kvs key

/-- Python isinstance(x, list) on a JSON value. -/
def Json.isList : Json → Bool
  | Json.arr _ => true
  | _ => false

/-- Python truthiness of a JSON value: None, False, 0, empty string, empty
list and empty dict are falsy, everything else is truthy. -/
def pyTruthy : Json → Bool
  | Json.null => false
  | Json.bool b => b
  | Json.num n => decide (n ≠ 0)
  | Json.str s => decide (s ≠ "")
  | Json.arr xs => !xs.isEmpty
  | Json.obj kvs => !kvs.isEmpty

/-- Whether pat occurs as a contiguous run inside l. -/
def containsSeg (pat : List Char) : List Char → Bool
  | [] => pat.isEmpty
  | c :: cs => pat.isPrefixOf (c :: cs) || containsSeg pat cs

/-- Python substring containment pat in hay for strings. -/
def strContains (hay pat : String) : Bool :=
  containsSeg pat.toList hay.toList

/-- Python membership test key in data on a JSON value.  Objects test key
presence, arrays test element equality with the string, strings test
substring containment; null, booleans and numbers are not containers, so
the in operator raises TypeError, modelled as none. -/
def pyIn (data : Json) (key : String) : Option Bool :=
  match data with
  | Json.obj kvs => some (jsonLookup kvs key).isSome
  | Json.arr xs =>
    some (xs.any (fun x => match x with | Json.str s => decide (s = key) | _ => false))
  | Json.str s => some (strContains s key)
  | _ => none

/-- The observable state of the ledger file ideas_history.json: absent,
present but unreadable or unparsable as JSON, or parsed to a JSON value. -/
inductive FileState where
  | missing : FileState
  | unreadable : FileState
  | parsed (j : Json) : FileState

/-- The fresh empty history dict that load_history builds, with the
datetime.now().isoformat() timestamp passed in as now. -/
def emptyHistory (now : String) : Json :=
  Json.obj [("approved_ideas", Json.arr []),
            ("rejected_ideas", Json.arr []),
            ("compressed_learnings", Json.str ""),
            ("last_updated", Json.str now)]

/-- load_history from src/agent.py (lines 61 to 82).  A missing file yields
a fresh empty history.  Any exception inside the try block - an unreadable
file, a json.load parse error, or a TypeError/AttributeError from probing a
non-container value - is caught, a warning is printed, and a fresh empty
history is returned.  A parsed object carrying the key explored_ideas with
a non-list value is returned unchanged; with a list value it is upcast to
the current schema; any other parsed value falls through to return data.
The second component is the file state after the call: the function only
reads, so it is always the input state. -/
def load_history (file : FileState) (now : String) : Json × FileState :=
  match file with
  | FileState.missing => (emptyHistory now, file)
  | FileState.unreadable => (emptyHistory now, file)
  | FileState.parsed data =>
    match pyIn data "explored_ideas" with
    | none => (emptyHistory now, file)
    | some false => (data, file)
    | some true =>
      match data with
      | Json.obj kvs =>
        match jsonLookup kvs "explored_ideas" with
        | some (Json.arr xs) =>
          (Json.obj [("approved_ideas", Json.arr xs),
                     ("rejected_ideas", Json.arr []),
                     ("compressed_learnings", Json.str ""),
                     ("last_updated", (jsonLookup kvs "last_updated").getD (Json.str now))],
           file)
        | _ => (data, file)
      | _ => (emptyHistory now, file)

/-- COMPRESSION_THRESHOLD from src/agent.py: compress learnings when the
rejection history reaches this many items. -/
def COMPRESSION_THRESHOLD : Nat := 100

/-- One rejected-idea record as appended by generate_and_evaluate_idea:
title and reason hold whatever JSON values the parsed oracle response
supplied (normally strings), timestamp is datetime.now().isoformat(). -/
structure RejectedIdea where
  title : Json
  reason : Json
  timestamp : String

/-- The in-memory history dict of StartupIdeaAgent in its current schema:
approved identifiers (titles and keyword tokens, arbitrary JSON values as
extended from the oracle response), rejected records, the accumulated
compressed-learnings text, and the last save timestamp. -/
structure Ledger where
  approved_ideas : List Json
  rejected_ideas : List RejectedIdea
  compressed_learnings : String
  last_updated : String

mutual

/-- Python repr of a JSON value (str on containers delegates to repr of
the elements): None/True/False, decimal numbers, single-quoted strings,
bracketed lists and braced dicts with comma-space separators. -/
def pyRepr : Json → String
  | Json.null => "None"
  | Json.bool true => "True"
  | Json.bool false => "False"
  | Json.num n => toString n
  | Json.str s => "\x27" ++ s ++ "\x27"
  | Json.arr xs => "[" ++ String.intercalate ", " (pyReprList xs) ++ "]"
  | Json.obj kvs => "\x7b" ++ String.intercalate ", " (pyReprKVs kvs) ++ "\x7d"

def pyReprList : List Json → List String
  | [] => []
  | x :: xs => pyRepr x :: pyReprList xs

def pyReprKVs : List (String × Json) → List String
  | [] => []
  | (k, v) :: kvs => ("\x27" ++ k ++ "\x27: " ++ pyRepr v) :: pyReprKVs kvs

end

/-- Python str() of a JSON value as interpolated by an f-string: a string
renders as itself, everything else as its repr. -/
def pyStr : Json → String
  | Json.str s => s
  | j => pyRepr j

/-- One line of the rejection summary: the f-string "- title: reason". -/
def formatRejected (i : RejectedIdea) : String :=
  "- " ++ pyStr i.title ++ ": " ++ pyStr i.reason

/-- The newline-joined rejection summary that compress_learnings sends to
the oracle, built from the most recent COMPRESSION_THRESHOLD rejected
records (the Python slice rejected_ideas[-COMPRESSION_THRESHOLD:]). -/
def rejected_summary (rs : List RejectedIdea) : String :=
  String.intercalate "\n"
    ((rs.drop (rs.length - COMPRESSION_THRESHOLD)).map formatRejected)

/-- Result of one compress_learnings call: the in-memory history
afterward, the prompts sent to the oracle (in call order), and whether
save_history was invoked. -/
structure CompressResult where
  history : Ledger
  oracleCalls : List String
  saved : Bool

/-- ASCII whitespace as Python str.strip removes it. -/
def isPyWhite (c : Char) : Bool :=
  c = Char.ofNat 32 || c = Char.ofNat 9 || c = Char.ofNat 10
    || c = Char.ofNat 13 || c = Char.ofNat 11 || c = Char.ofNat 12

/-- Python str.strip(): leading and trailing whitespace removed. -/
def pyStrip (s : String) : String :=
  String.mk (((s.toList.dropWhile isPyWhite).reverse.dropWhile isPyWhite).reverse)

/-- compress_learnings from src/agent.py (lines 155 to 209).  Below the
threshold it returns at once.  Otherwise it builds the rejection summary
over the last COMPRESSION_THRESHOLD records and sends it to the oracle
(the messages.create call, modelled as a function from the prompt to
either an error or the reply text).  On failure the except clause logs and
returns with the history untouched.  On success the stripped reply is
appended to compressed_learnings - under the dated separator when
learnings already exist, verbatim when the field is empty - then
rejected_ideas is cut to its last 50 entries and save_history runs,
stamping last_updated with now. -/
def compress_learnings (h : Ledger) (oracle : String → Except String String)
    (date now : String) : CompressResult :=
  if h.rejected_ideas.length < COMPRESSION_THRESHOLD then ⟨h, [], false⟩
  else
    let summary := rejected_summary h.rejected_ideas
    match oracle summary with
    | Except.error _ => ⟨h, [summary], false⟩
    | Except.ok t =>
      let compressed := pyStrip t
      let cl :=
        if h.compressed_learnings ≠ "" then
          h.compressed_learnings ++ "\n\n--- Compression from " ++ date ++ " ---\n"
            ++ compressed
        else compressed
      ⟨{ approved_ideas := h.approved_ideas
         rejected_ideas := h.rejected_ideas.drop (h.rejected_ideas.length - 50)
         compressed_learnings := cl
         last_updated := now },
       [summary], true⟩

/-- Lowercase hexadecimal digit, as Python json uses in escapes. -/
def hexDigit (n : Nat) : Char :=
  if n < 10 then Char.ofNat (48 + n) else Char.ofNat (87 + n)

/-- Four-digit lowercase hex rendering of a code point below 0x10000. -/
def hex4 (n : Nat) : String :=
  String.mk [hexDigit (n / 4096 % 16), hexDigit (n / 256 % 16),
             hexDigit (n / 16 % 16), hexDigit (n % 16)]

/-- Escaping of one character inside a JSON string literal as json.dump
performs it with the default ensure_ascii=True: backslash, double quote
and the common control characters get two-character escapes, other control
characters and all non-ASCII characters become backslash-u escapes, the
rest pass through. -/
def escapeJsonChar (c : Char) : String :=
  if c = Char.ofNat 34 then "\\\""
  else if c = Char.ofNat 92 then "\\\\"
  else if c = Char.ofNat 10 then "\\n"
  else if c = Char.ofNat 9 then "\\t"
  else if c = Char.ofNat 13 then "\\r"
  else if c = Char.ofNat 8 then "\\b"
  else if c = Char.ofNat 12 then "\\f"
  else if c.toNat < 32 ∨ 126 < c.toNat then "\\u" ++ hex4 c.toNat
  else String.singleton c

/-- A JSON string literal with its surrounding double quotes. -/
def escapeJsonString (s : String) : String :=
  "\"" ++ String.join (s.toList.map escapeJsonChar) ++ "\""

/-- Run of n spaces for pretty-printed indentation. -/
def spaces (n : Nat) : String :=
  String.mk (List.replicate n (Char.ofNat 32))

mutual

/-- Serialization a la json.dump(obj, f, indent=2): scalars inline, empty
containers inline, nonempty containers spread over lines with two extra
spaces of indentation per level and comma-newline separators. -/
def jsonDump : Nat → Json → String
  | _, Json.null => "null"
  | _, Json.bool true => "true"
  | _, Json.bool false => "false"
  | _, Json.num n => toString n
  | _, Json.str s => escapeJsonString s
  | _, Json.arr [] => "[]"
  | ind, Json.arr (x :: xs) =>
    "[\n" ++ String.intercalate ",\n" (jsonDumpList (ind + 2) (x :: xs))
      ++ "\n" ++ spaces ind ++ "]"
  | _, Json.obj [] => "\x7b\x7d"
  | ind, Json.obj (kv :: kvs) =>
    "\x7b\n" ++ String.intercalate ",\n" (jsonDumpKVs (ind + 2) (kv :: kvs))
      ++ "\n" ++ spaces ind ++ "\x7d"

def jsonDumpList : Nat → List Json → List String
  | _, [] => []
  | ind, x :: xs => (spaces ind ++ jsonDump ind x) :: jsonDumpList ind xs

def jsonDumpKVs : Nat → List (String × Json) → List String
  | _, [] => []
  | ind, (k, v) :: kvs =>
    (spaces ind ++ escapeJsonString k ++ ": " ++ jsonDump ind v) :: jsonDumpKVs ind kvs

end

/-- The JSON object json.dump serializes for a history in the current
schema, with the dict insertion order the agent constructs. -/
def Ledger.toJson (h : Ledger) : Json :=
  Json.obj [("approved_ideas", Json.arr h.approved_ideas),
            ("rejected_ideas", Json.arr (h.rejected_ideas.map (fun r =>
              Json.obj [("title", r.title), ("reason", r.reason),
                        ("timestamp", Json.str r.timestamp)]))),
            ("compressed_learnings", Json.str h.compressed_learnings),
            ("last_updated", Json.str h.last_updated)]

/-- save_history from src/agent.py (lines 84 to 91): stamps last_updated
with datetime.now().isoformat(), then opens ideas_history.json with mode
w - which truncates whatever the file held - and streams the json.dump
serialization into it.  The result is the in-memory history afterward and
the file content a fully successful write leaves behind.  Exceptions are
caught and only logged; the function body has no return statement, so the
caller receives None in every case. -/
def save_history (h : Ledger) (now : String) : Ledger × String :=
  let h1 : Ledger := { h with last_updated := now }
  (h1, jsonDump 0 h1.toJson)

/-- The file content observable if an I/O error interrupts save_history
after k characters have reached the disk: mode w truncates the file
before any data is written, so the file holds a bare prefix of the new
serialization; k = 0 is the state right after the truncating open. -/
def save_history_interrupted (h : Ledger) (now : String) (k : Nat) : String :=
  String.mk ((save_history h now).2.toList.take k)

/-- The opening-brace character, written via its code point. -/
def lbrace : Char := Char.ofNat 123

/-- The closing-brace character, written via its code point. -/
def rbrace : Char := Char.ofNat 125

/-- Python str.find: index of the first occurrence of c, or -1. -/
def pyFind (l : List Char) (c : Char) : Int :=
  match l.findIdx? (fun x => x == c) with
  | some i => (i : Int)
  | none => -1

/-- Python str.rfind: index of the last occurrence of c, or -1. -/
def pyRFind (l : List Char) (c : Char) : Int :=
  match l.reverse.findIdx? (fun x => x == c) with
  | some i => ((l.length - 1 - i : Nat) : Int)
  | none => -1

/-- Python slice s[a:b] for nonnegative bounds: empty when b is at most a,
clamped at the end of the list. -/
def pySlice (l : List Char) (a b : Nat) : List Char :=
  (l.drop a).take (b - a)

/-- Python list.extend(x): a list extends elementwise, a string character
by character (each character a one-character string), a dict by its keys;
null, booleans and numbers are not iterable, so extend raises TypeError
before mutating anything, modelled as none. -/
def pyExtend (l : List Json) : Json → Option (List Json)
  | Json.arr xs => some (l ++ xs)
  | Json.str s => some (l ++ s.toList.map (fun c => Json.str (String.singleton c)))
  | Json.obj kvs => some (l ++ kvs.map (fun kv => Json.str kv.1))
  | _ => none

/-- Python dict key assignment d[k] = v: replaces the value in place when
the key already exists (keeping its position), otherwise appends. -/
def objSet : List (String × Json) → String → Json → List (String × Json)
  | [], key, v => [(key, v)]
  | (k, w) :: kvs, key, v =>
    if k = key then (k, v) :: kvs else (k, w) :: objSet kvs key v

/-- Result of one generate_and_evaluate_idea call: the value returned to
run (None or the approved idea dict with citations attached), the
in-memory history afterward, and how many times save_history ran. -/
structure IterationResult where
  returned : Option Json
  history : Ledger
  saveCount : Nat

/-- generate_and_evaluate_idea from src/agent.py (lines 211 to 408), from
the point the oracle response text and citations are in hand.  The JSON
payload is sliced between the first opening brace and one past the last
closing brace; if either brace is absent the function warns and returns
None.  parse stands for json.loads (none models JSONDecodeError, caught
lower down).  A parsed non-object makes the later .get attribute access
raise, which the catch-all turns into None with nothing mutated.  A falsy
venture_backable verdict appends a rejected record, saves, and runs
compress_learnings (with compressOracle as its summarization call); a
truthy one requires the title key (a KeyError in the approval log line is
caught with nothing mutated), extends approved_ideas with the keywords
value and the title (a TypeError from a non-iterable keywords value is
caught before any mutation), saves, and returns the result dict with the
citations list attached under the citations key.  ts, date and now stand
for the datetime.now() readings used for the record timestamp, the
compression separator date, and the save stamps. -/
def generate_and_evaluate_idea (h : Ledger) (response_text : List Char)
    (parse : List Char → Option Json) (citations : List Json)
    (compressOracle : String → Except String String)
    (ts date now : String) : IterationResult :=
  let json_start := pyFind response_text lbrace
  let json_end := pyRFind response_text rbrace + 1
  if json_start = -1 ∨ json_end = 0 then ⟨none, h, 0⟩
  else
    match parse (pySlice response_text json_start.toNat json_end.toNat) with
    | none => ⟨none, h, 0⟩
    | some (Json.obj kvs) =>
      if ¬ pyTruthy ((jsonLookup kvs "venture_backable").getD (Json.bool false)) then
        let idea_title := (jsonLookup kvs "idea").getD (Json.str "Unknown idea")
        let reason := (jsonLookup kvs "reason").getD (Json.str "No reason provided")
        let h1 : Ledger :=
          { h with rejected_ideas := h.rejected_ideas ++ [⟨idea_title, reason, ts⟩] }
        let h2 := (save_history h1 now).1
        let c := compress_learnings h2 compressOracle date now
        ⟨none, c.history, 1 + (if c.saved then 1 else 0)⟩
      else
        match jsonLookup kvs "title" with
        | none => ⟨none, h, 0⟩
        | some title =>
          let keywords := (jsonLookup kvs "keywords").getD (Json.arr [])
          match pyExtend h.approved_ideas keywords with
          | none => ⟨none, h, 0⟩
          | some ap =>
            let h1 : Ledger := { h with approved_ideas := ap ++ [title] }
            let h2 := (save_history h1 now).1
            ⟨some (Json.obj (objSet kvs "citations" (Json.arr citations))), h2, 1⟩
    | some _ => ⟨none, h, 0⟩

/-- One theme cluster from a batch-analysis reply, in the shape the
analysis prompt in src/ideas/analyze_ideas.py requests. -/
structure Theme where
  name : String
  description : String
  idea_indices : List Int
  promise_score : Int
  saturation : String
  key_insight : String
deriving DecidableEq

/-- One duplicate group from a batch-analysis reply. -/
structure DuplicateGroup where
  group : List Int
  reason : String
deriving DecidableEq

/-- One per-idea score row from a batch-analysis reply. -/
structure Score where
  idea_index : Int
  market_timing : Int
  defensibility : Int
  tam_quality : Int
  execution_difficulty : Int
  total_score : Int
  unique_angle : String
  concerns : String
deriving DecidableEq

/-- The themes/duplicates/scores triple one analyze_ideas_batch call
yields (also the shape of the merged accumulator). -/
structure BatchResult where
  themes : List Theme
  duplicates : List DuplicateGroup
  scores : List Score
deriving DecidableEq

/-- The per-theme index rewrite of the merge loop: offset added to every
element of idea_indices, every other field untouched. -/
def adjustTheme (offset : Int) (t : Theme) : Theme :=
  { t with idea_indices := t.idea_indices.map (fun i => i + offset) }

/-- The per-duplicate-group index rewrite: offset added to every element
of group. -/
def adjustDuplicate (offset : Int) (d : DuplicateGroup) : DuplicateGroup :=
  { d with group := d.group.map (fun i => i + offset) }

/-- The per-score index rewrite: offset added to idea_index. -/
def adjustScore (offset : Int) (s : Score) : Score :=
  { s with idea_index := s.idea_index + offset }

/-- A whole batch result after the loop body has rewritten each of its
themes, duplicate groups and scores with the batch offset.  This is also
the value the input dict holds after the call, because the loop assigns
the adjusted lists back into the same dicts it appends to merged. -/
def adjustBatch (offset : Int) (r : BatchResult) : BatchResult :=
  ⟨r.themes.map (adjustTheme offset),
   r.duplicates.map (adjustDuplicate offset),
   r.scores.map (adjustScore offset)⟩

/-- The merge loop of merge_batch_results from batch number k onward:
first component the concatenated merged contribution, second the
post-call state of the input list (each batch dict now holding its
offset-adjusted themes, duplicates and scores). -/
def mergeFrom (k : Nat) (batch_size : Int) : List BatchResult → BatchResult × List BatchResult
  | [] => (⟨[], [], []⟩, [])
  | r :: rs =>
    let r1 := adjustBatch ((k : Int) * batch_size) r
    let rest := mergeFrom (k + 1) batch_size rs
    (⟨r1.themes ++ rest.1.themes,
      r1.duplicates ++ rest.1.duplicates,
      r1.scores ++ rest.1.scores⟩,
     r1 :: rest.2)

/-- merge_batch_results from src/ideas/analyze_ideas.py (lines 158 to
184): for the k-th batch (0-based, from enumerate) the offset is
k * batch_size; every theme, duplicate group and score is rewritten with
that offset and appended, in order, to the merged accumulator.  The
second component is the state of the input batch results after the call;
the loop mutates each dict in place before appending it, so the inputs
end up holding the adjusted index fields. -/
def merge_batch_results (batch_results : List BatchResult) (batch_size : Int) :
    BatchResult × List BatchResult :=
  mergeFrom 0 batch_size batch_results

/-- Insertion step of the stable descending sort: s walks past elements
with a strictly larger total_score and lands in front of the first
element whose total_score is not larger, so an element equal in key to s
but originally earlier stays in front of it. -/
def insertByTotalDesc (s : Score) : List Score → List Score
  | [] => [s]
  | t :: ts =>
    if s.total_score < t.total_score then t :: insertByTotalDesc s ts
    else s :: t :: ts

/-- The stable sort of the scores by total_score descending that the
Python call sorted(scores, key total_score, reverse=True) produces
(Python sorted is guaranteed stable, and the stable descending order is
unique, so insertion sort realizes it exactly). -/
def sortByTotalDesc : List Score → List Score
  | [] => []
  | s :: ss => insertByTotalDesc s (sortByTotalDesc ss)

/-- The top_ideas field main builds in src/ideas/analyze_ideas.py (lines
243 to 247): the merged scores sorted by total_score descending, stably,
then cut to the first 20. -/
def top_ideas (scores : List Score) : List Score :=
  (sortByTotalDesc scores).take 20

/-- Characterization of the merge loop started at batch number k: the
merged contribution is the concatenation of the offset-adjusted batches
in order, and the inputs are left holding exactly their adjusted values. -/
theorem mergeFrom_eq (batch_size : Int) :
    ∀ (brs : List BatchResult) (k : Nat),
      (mergeFrom k batch_size brs).1.themes
        = ((brs.enumFrom k).map
            (fun p => p.2.themes.map (adjustTheme ((p.1 : Int) * batch_size)))).flatten
      ∧ (mergeFrom k batch_size brs).1.duplicates
        = ((brs.enumFrom k).map
            (fun p => p.2.duplicates.map (adjustDuplicate ((p.1 : Int) * batch_size)))).flatten
      ∧ (mergeFrom k batch_size brs).1.scores
        = ((brs.enumFrom k).map
            (fun p => p.2.scores.map (adjustScore ((p.1 : Int) * batch_size)))).flatten
      ∧ (mergeFrom k batch_size brs).2
        = (brs.enumFrom k).map (fun p => adjustBatch ((p.1 : Int) * batch_size) p.2)
  | [], k => by simp [mergeFrom, List.enumFrom]
  | r :: rs, k => by
    obtain ⟨h1, h2, h3, h4⟩ := mergeFrom_eq batch_size rs (k + 1)
    simp [mergeFrom, List.enumFrom, h1, h2, h3, h4, adjustBatch]

/-- C1.  merge_batch_results adds offset = k * batch_size (k the 0-based
batch position) to every element of the idea_indices of each theme, to
every element of the group of each duplicate group, and to the idea_index
of each score,
and concatenates the adjusted themes, duplicates and scores across the
batches in order, without deduplication; in particular, with
batch_size = 20 a score with idea_index 3 in batch 2 comes out with
idea_index 43. -/
theorem merge_batch_results_reindexes :
    (∀ (brs : List BatchResult) (bs : Int),
      (merge_batch_results brs bs).1.themes
        = (brs.enum.map
            (fun p => p.2.themes.map (adjustTheme ((p.1 : Int) * bs)))).flatten
      ∧ (merge_batch_results brs bs).1.duplicates
        = (brs.enum.map
            (fun p => p.2.duplicates.map (adjustDuplicate ((p.1 : Int) * bs)))).flatten
      ∧ (merge_batch_results brs bs).1.scores
        = (brs.enum.map
            (fun p => p.2.scores.map (adjustScore ((p.1 : Int) * bs)))).flatten)
    ∧ (merge_batch_results
        [⟨[], [], []⟩, ⟨[], [], []⟩,
         ⟨[], [], [⟨3, 8, 7, 9, 6, 30, "", ""⟩]⟩] 20).1.scores.map Score.idea_index
      = [43] := by
  constructor
  · intro brs bs
    obtain ⟨h1, h2, h3, _⟩ := mergeFrom_eq bs brs 0
    exact ⟨h1, h2, h3⟩
  · rfl

/-- C9 counterexample.  merge_batch_results does not leave the input
batch results unchanged: on two batches whose second holds a score with
idea_index 3 (batch_size 20), the input list after the call differs from
the one before, because the loop assigns the adjusted lists back into the
dicts it was given. -/
theorem merge_batch_results_mutates_inputs :
    (merge_batch_results
      [⟨[], [], [⟨3, 8, 7, 9, 6, 30, "", ""⟩]⟩,
       ⟨[], [], [⟨3, 8, 7, 9, 6, 30, "", ""⟩]⟩] 20).2
    ≠ [⟨[], [], [⟨3, 8, 7, 9, 6, 30, "", ""⟩]⟩,
       ⟨[], [], [⟨3, 8, 7, 9, 6, 30, "", ""⟩]⟩] := by
  decide

/-- C9 amended.  The merge step is deterministic - the merged report is a
function of the input values alone - but it is not frame-preserving: after
the call, the k-th input batch result holds exactly its offset-adjusted
themes, duplicate groups and scores (the very objects the merged report
shares), so only batch 0, whose offset is zero, keeps its original index
values. -/
theorem merge_batch_results_input_state :
    (∀ (brs : List BatchResult) (bs : Int),
      (merge_batch_results brs bs).2
        = brs.enum.map (fun p => adjustBatch ((p.1 : Int) * bs) p.2))
    ∧ (∀ (r : BatchResult) (rs : List BatchResult) (bs : Int),
      (merge_batch_results (r :: rs) bs).2.head? = some (adjustBatch 0 r)) := by
  constructor
  · intro brs bs
    exact (mergeFrom_eq bs brs 0).2.2.2
  · intro r rs bs
    have h := (mergeFrom_eq bs (r :: rs) 0).2.2.2
    simp only [merge_batch_results, h, List.enumFrom, List.map, List.head?]
    norm_num


/-- Membership in the insertion step of the descending sort. -/
theorem mem_insertByTotalDesc {x s : Score} {l : List Score} :
    x ∈ insertByTotalDesc s l ↔ x = s ∨ x ∈ l := by
  induction l with
  | nil => simp [insertByTotalDesc]
  | cons t ts ih =>
    by_cases h : s.total_score < t.total_score
    · simp only [insertByTotalDesc, h, if_true, List.mem_cons, ih]
      try tauto
    · simp only [insertByTotalDesc, h, if_false, List.mem_cons]
      try tauto

/-- The insertion step permutes: inserting s into l gives s :: l up to
reordering. -/
theorem insertByTotalDesc_perm (s : Score) (l : List Score) :
    (insertByTotalDesc s l).Perm (s :: l) := by
  induction l with
  | nil => rfl
  | cons t ts ih =>
    by_cases h : s.total_score < t.total_score
    · simpa [insertByTotalDesc, h] using (ih.cons t).trans (List.Perm.swap s t ts)
    · simp [insertByTotalDesc, h]

/-- The insertion step preserves the descending pairwise order. -/
theorem insertByTotalDesc_pairwise (s : Score) :
    ∀ {l : List Score},
      l.Pairwise (fun a b => b.total_score ≤ a.total_score) →
      (insertByTotalDesc s l).Pairwise (fun a b => b.total_score ≤ a.total_score) := by
  intro l
  induction l with
  | nil => intro _; simp [insertByTotalDesc]
  | cons t ts ih =>
    intro h
    rw [List.pairwise_cons] at h
    by_cases hlt : s.total_score < t.total_score
    · simp only [insertByTotalDesc, hlt, if_true]
      rw [List.pairwise_cons]
      refine ⟨?_, ih h.2⟩
      intro x hx
      rcases mem_insertByTotalDesc.mp hx with rfl | hx
      · exact le_of_lt hlt
      · exact h.1 x hx
    · simp only [insertByTotalDesc, hlt, if_false]
      rw [List.pairwise_cons]
      refine ⟨?_, List.pairwise_cons.mpr h⟩
      intro x hx
      rcases List.mem_cons.mp hx with rfl | hx
      · exact le_of_not_lt hlt
      · exact le_trans (h.1 x hx) (le_of_not_lt hlt)

/-- Filtering the insertion result on the key of the inserted element puts
that element first: everything it walked past had a strictly larger key. -/
theorem filter_insertByTotalDesc_self (s : Score) (l : List Score) :
    (insertByTotalDesc s l).filter (fun x => decide (x.total_score = s.total_score))
      = s :: l.filter (fun x => decide (x.total_score = s.total_score)) := by
  induction l with
  | nil => simp [insertByTotalDesc]
  | cons t ts ih =>
    by_cases hlt : s.total_score < t.total_score
    · have ht : ¬ (t.total_score = s.total_score) := by omega
      simp only [insertByTotalDesc, hlt, if_true, List.filter_cons, ih,
        decide_eq_true_eq, ht, if_false]
    · simp [insertByTotalDesc, hlt, List.filter_cons]

/-- Filtering the insertion result on any other key ignores the inserted
element. -/
theorem filter_insertByTotalDesc_ne (s : Score) (l : List Score) (k : Int)
    (hk : s.total_score ≠ k) :
    (insertByTotalDesc s l).filter (fun x => decide (x.total_score = k))
      = l.filter (fun x => decide (x.total_score = k)) := by
  induction l with
  | nil => simp [insertByTotalDesc, hk]
  | cons t ts ih =>
    by_cases hlt : s.total_score < t.total_score
    · simp only [insertByTotalDesc, hlt, if_true, List.filter_cons, ih]
    · simp [insertByTotalDesc, hlt, List.filter_cons, hk]

/-- Stability of the sort: restricted to any one key value, the sorted
list lists exactly the input elements in their original order. -/
theorem sortByTotalDesc_filter (l : List Score) (k : Int) :
    (sortByTotalDesc l).filter (fun x => decide (x.total_score = k))
      = l.filter (fun x => decide (x.total_score = k)) := by
  induction l with
  | nil => rfl
  | cons s ss ih =>
    by_cases hk : s.total_score = k
    · subst hk
      rw [sortByTotalDesc, filter_insertByTotalDesc_self, ih]
      simp [List.filter_cons]
    · rw [sortByTotalDesc, filter_insertByTotalDesc_ne _ _ _ hk, ih]
      simp [List.filter_cons, hk]

/-- C8.  The top-ideas view equals the 20-element prefix of the merged
scores sorted by total_score descending with ties broken by original
order: the sort is a permutation, pairwise descending in total_score, and
stable (each key class keeps its input order); on the scores with
(index 0, total 10), (index 1, total 30), (index 2, total 30) the sorted
index order is [1, 2, 0]. -/
theorem top_ideas_stable_sort :
    (∀ scores : List Score, (sortByTotalDesc scores).Perm scores)
    ∧ (∀ scores : List Score,
        (sortByTotalDesc scores).Pairwise (fun a b => b.total_score ≤ a.total_score))
    ∧ (∀ (scores : List Score) (k : Int),
        (sortByTotalDesc scores).filter (fun s => decide (s.total_score = k))
          = scores.filter (fun s => decide (s.total_score = k)))
    ∧ (∀ scores : List Score, top_ideas scores = (sortByTotalDesc scores).take 20)
    ∧ (sortByTotalDesc
        [⟨0, 0, 0, 0, 0, 10, "", ""⟩, ⟨1, 0, 0, 0, 0, 30, "", ""⟩,
         ⟨2, 0, 0, 0, 0, 30, "", ""⟩]).map Score.idea_index = [1, 2, 0] := by
  refine ⟨?_, ?_, sortByTotalDesc_filter, fun _ => rfl, by decide⟩
  · intro scores
    induction scores with
    | nil => rfl
    | cons s ss ih => exact (insertByTotalDesc_perm s _).trans (ih.cons s)
  · intro scores
    induction scores with
    | nil => exact List.Pairwise.nil
    | cons s ss ih => exact insertByTotalDesc_pairwise s ih


/-- C4.  load_history never raises: a missing storage file yields a fresh
empty ledger; a corrupt or unreadable file yields a fresh empty ledger
(after a logged warning); the legacy flat-list file holding exactly
explored_ideas = ["a", "b"] is upcast in memory to approved_ideas =
["a", "b"], rejected_ideas = [], compressed_learnings = "" (with a fresh
last_updated stamp); and no call path writes to storage - the file state
after any load equals the file state before. -/
theorem load_history_fallbacks :
    (∀ now : String,
      load_history FileState.missing now = (emptyHistory now, FileState.missing))
    ∧ (∀ now : String,
      load_history FileState.unreadable now = (emptyHistory now, FileState.unreadable))
    ∧ (∀ now : String,
      load_history
        (FileState.parsed
          (Json.obj [("explored_ideas", Json.arr [Json.str "a", Json.str "b"])])) now
      = (Json.obj [("approved_ideas", Json.arr [Json.str "a", Json.str "b"]),
                   ("rejected_ideas", Json.arr []),
                   ("compressed_learnings", Json.str ""),
                   ("last_updated", Json.str now)],
         FileState.parsed
          (Json.obj [("explored_ideas", Json.arr [Json.str "a", Json.str "b"])])))
    ∧ (∀ (f : FileState) (now : String), (load_history f now).2 = f) := by
  refine ⟨fun now => rfl, fun now => rfl, fun now => rfl, ?_⟩
  intro f now
  cases f with
  | missing => rfl
  | unreadable => rfl
  | parsed data =>
    simp only [load_history]
    repeat' split
    all_goals rfl

/-- C10.  When the storage file parses to a JSON object whose key
explored_ideas maps to a non-list value, load_history returns the parsed
object unchanged - no legacy upcast and no defaulting - so the returned
dict may lack the approved_ideas, rejected_ideas and compressed_learnings
keys entirely; storage is untouched. -/
theorem load_history_nonlist_passthrough
    (kvs : List (String × Json)) (v : Json) (now : String)
    (hv : jsonLookup kvs "explored_ideas" = some v) (hl : v.isList = false) :
    load_history (FileState.parsed (Json.obj kvs)) now
      = (Json.obj kvs, FileState.parsed (Json.obj kvs)) := by
  have hin : pyIn (Json.obj kvs) "explored_ideas" = some true := by
    simp [pyIn, hv]
  cases v with
  | arr xs => simp [Json.isList] at hl
  | null => simp [load_history, hin, hv]
  | bool b => simp [load_history, hin, hv]
  | num n => simp [load_history, hin, hv]
  | str s => simp [load_history, hin, hv]
  | obj o => simp [load_history, hin, hv]

/-- C10 witness.  A file parsing to the object with explored_ideas = 5 is
returned exactly as parsed, lacking every current-schema key. -/
theorem load_history_nonlist_passthrough_witness :
    load_history (FileState.parsed (Json.obj [("explored_ideas", Json.num 5)])) "T"
      = (Json.obj [("explored_ideas", Json.num 5)],
         FileState.parsed (Json.obj [("explored_ideas", Json.num 5)])) :=
  load_history_nonlist_passthrough _ (Json.num 5) "T" rfl rfl


/-- Rejected records used by the concrete witnesses below. -/
def demoRejected (n : Nat) : List RejectedIdea :=
  List.replicate n ⟨Json.str "t", Json.str "r", "ts"⟩

/-- Ledger with n rejected records, no approvals and empty learnings. -/
def demoLedger (n : Nat) : Ledger :=
  ⟨[], demoRejected n, "", "u"⟩

/-- C2.  compress_learnings with the threshold of 100 is a no-op on a
ledger holding fewer than 100 rejected records; at 100 or more it sends
the oracle exactly one prompt, built from the most recent 100 records,
and on oracle success it truncates rejected_ideas to its final 50 entries
(length exactly 50, hence at most the retention cap 50) and persists the
ledger through save_history. -/
theorem compress_learnings_trigger (h : Ledger)
    (oracle : String → Except String String) (date now : String) :
    (h.rejected_ideas.length < 100 →
      compress_learnings h oracle date now = ⟨h, [], false⟩)
    ∧ (100 ≤ h.rejected_ideas.length →
        (compress_learnings h oracle date now).oracleCalls
          = [String.intercalate "\n"
              ((h.rejected_ideas.drop (h.rejected_ideas.length - 100)).map formatRejected)]
        ∧ ∀ t : String, oracle (rejected_summary h.rejected_ideas) = Except.ok t →
            (compress_learnings h oracle date now).history.rejected_ideas
              = h.rejected_ideas.drop (h.rejected_ideas.length - 50)
            ∧ (compress_learnings h oracle date now).history.rejected_ideas.length = 50
            ∧ (compress_learnings h oracle date now).history.rejected_ideas.length ≤ 50
            ∧ (compress_learnings h oracle date now).saved = true) := by
  constructor
  · intro hlt
    simp [compress_learnings, COMPRESSION_THRESHOLD, hlt]
  · intro hge
    have hnlt : ¬ (h.rejected_ideas.length < COMPRESSION_THRESHOLD) := by
      simp only [COMPRESSION_THRESHOLD]
      omega
    constructor
    · cases ho : oracle (rejected_summary h.rejected_ideas) with
      | error e =>
        unfold compress_learnings
        rw [if_neg hnlt]
        simp only [ho]
        simp [rejected_summary, COMPRESSION_THRESHOLD]
      | ok t =>
        unfold compress_learnings
        rw [if_neg hnlt]
        simp only [ho]
        simp [rejected_summary, COMPRESSION_THRESHOLD]
    · intro t ho
      have hlen : (h.rejected_ideas.drop (h.rejected_ideas.length - 50)).length = 50 := by
        rw [List.length_drop]
        omega
      refine ⟨?_, ?_, ?_, ?_⟩ <;> simp [compress_learnings, hnlt, ho, hlen]

/-- C2 witness.  At 99 records the call is the identity on the ledger
with no oracle call and no save; at 100 the oracle receives exactly the
summary of the last 100 records, 50 records survive, and a save runs. -/
theorem compress_learnings_trigger_witness :
    compress_learnings (demoLedger 99) (fun _ => Except.ok "L") "D" "N"
      = ⟨demoLedger 99, [], false⟩
    ∧ (compress_learnings (demoLedger 100) (fun _ => Except.ok "L") "D" "N").oracleCalls
      = [String.intercalate "\n"
          (((demoLedger 100).rejected_ideas.drop
            ((demoLedger 100).rejected_ideas.length - 100)).map formatRejected)]
    ∧ (compress_learnings (demoLedger 100)
        (fun _ => Except.ok "L") "D" "N").history.rejected_ideas.length = 50
    ∧ (compress_learnings (demoLedger 100) (fun _ => Except.ok "L") "D" "N").saved
      = true :=
  ⟨(compress_learnings_trigger (demoLedger 99) (fun _ => Except.ok "L") "D" "N").1
    (by simp [demoLedger, demoRejected]),
   ((compress_learnings_trigger (demoLedger 100) (fun _ => Except.ok "L") "D" "N").2
    (by simp [demoLedger, demoRejected])).1,
   (((compress_learnings_trigger (demoLedger 100) (fun _ => Except.ok "L") "D" "N").2
    (by simp [demoLedger, demoRejected])).2 "L" rfl).2.1,
   (((compress_learnings_trigger (demoLedger 100) (fun _ => Except.ok "L") "D" "N").2
    (by simp [demoLedger, demoRejected])).2 "L" rfl).2.2.2⟩

/-- C5.  On a ledger at or past the threshold, an oracle failure during
compress_learnings leaves the whole history - compressed_learnings,
rejected_ideas and every other field - exactly as before, performs no
save, and returns normally (the embedding is a total function: the except
clause swallows the exception). -/
theorem compress_learnings_oracle_failure (h : Ledger)
    (oracle : String → Except String String) (date now e : String)
    (hge : 100 ≤ h.rejected_ideas.length)
    (he : oracle (rejected_summary h.rejected_ideas) = Except.error e) :
    (compress_learnings h oracle date now).history = h
    ∧ (compress_learnings h oracle date now).saved = false := by
  have hnlt : ¬ (h.rejected_ideas.length < COMPRESSION_THRESHOLD) := by
    simp only [COMPRESSION_THRESHOLD]
    omega
  constructor <;> simp [compress_learnings, hnlt, he]

/-- C5 witness.  A ledger of 100 records with a failing oracle comes back
untouched and unsaved. -/
theorem compress_learnings_oracle_failure_witness :
    (compress_learnings (demoLedger 100)
      (fun _ => Except.error "boom") "D" "N").history = demoLedger 100
    ∧ (compress_learnings (demoLedger 100)
        (fun _ => Except.error "boom") "D" "N").saved = false :=
  compress_learnings_oracle_failure (demoLedger 100) (fun _ => Except.error "boom")
    "D" "N" "boom" (by simp [demoLedger, demoRejected]) rfl


/-- C6 counterexample.  A successful compression on a ledger whose
compressed_learnings is empty stores the oracle text verbatim: the result
is "X" and contains no dated separator, so "appended under a dated
separator" fails for the first compression. -/
theorem compress_learnings_first_no_separator :
    (compress_learnings (demoLedger 100) (fun _ => Except.ok "X")
      "2025-01-01" "N").history.compressed_learnings = "X"
    ∧ strContains
        (compress_learnings (demoLedger 100) (fun _ => Except.ok "X")
          "2025-01-01" "N").history.compressed_learnings
        "--- Compression from" = false := by
  constructor
  · rfl
  · rfl

/-- The compressed_learnings value a successful compression leaves: the
stripped oracle text alone when the field was empty, otherwise the old
text with the dated separator and the stripped oracle text appended. -/
theorem compress_learnings_cl_eq (h : Ledger)
    (oracle : String → Except String String) (date now t : String)
    (hge : 100 ≤ h.rejected_ideas.length)
    (ho : oracle (rejected_summary h.rejected_ideas) = Except.ok t) :
    (compress_learnings h oracle date now).history.compressed_learnings
      = if h.compressed_learnings = "" then pyStrip t
        else h.compressed_learnings ++ "\n\n--- Compression from " ++ date
          ++ " ---\n" ++ pyStrip t := by
  have hnlt : ¬ (h.rejected_ideas.length < COMPRESSION_THRESHOLD) := by
    simp only [COMPRESSION_THRESHOLD]
    omega
  unfold compress_learnings
  rw [if_neg hnlt]
  simp only [ho]
  by_cases hne : h.compressed_learnings = "" <;> simp [hne]

/-- C6 amended.  After a successful compression the old
compressed_learnings is a prefix of the new value; the oracle text is
appended under the dated separator --- Compression from date --- exactly
when the old value was non-empty, and stored verbatim when it was empty;
and after a second successful compression (from any ledger carrying the
first result as its learnings) the final text contains the first oracle
output entirely before the second. -/
theorem compress_learnings_append_monotone (h : Ledger)
    (oracle : String → Except String String) (date now t : String)
    (hge : 100 ≤ h.rejected_ideas.length)
    (ho : oracle (rejected_summary h.rejected_ideas) = Except.ok t) :
    (∃ rest, (compress_learnings h oracle date now).history.compressed_learnings
        = h.compressed_learnings ++ rest)
    ∧ (h.compressed_learnings ≠ "" →
        (compress_learnings h oracle date now).history.compressed_learnings
          = h.compressed_learnings ++ "\n\n--- Compression from " ++ date
            ++ " ---\n" ++ pyStrip t)
    ∧ (h.compressed_learnings = "" →
        (compress_learnings h oracle date now).history.compressed_learnings = pyStrip t)
    ∧ (∀ (h2 : Ledger) (oracle2 : String → Except String String)
        (date2 now2 t2 : String),
        h2.compressed_learnings
          = (compress_learnings h oracle date now).history.compressed_learnings →
        100 ≤ h2.rejected_ideas.length →
        oracle2 (rejected_summary h2.rejected_ideas) = Except.ok t2 →
        ∃ u v w, (compress_learnings h2 oracle2 date2 now2).history.compressed_learnings
          = u ++ pyStrip t ++ v ++ pyStrip t2 ++ w) := by
  have hcl := compress_learnings_cl_eq h oracle date now t hge ho
  have hend : ∃ pre, (compress_learnings h oracle date now).history.compressed_learnings
      = pre ++ pyStrip t := by
    by_cases hne : h.compressed_learnings = ""
    · exact ⟨"", by rw [hcl, if_pos hne, String.empty_append]⟩
    · refine ⟨h.compressed_learnings ++ "\n\n--- Compression from " ++ date ++ " ---\n", ?_⟩
      rw [hcl, if_neg hne]
  refine ⟨?_, ?_, ?_, ?_⟩
  · by_cases hne : h.compressed_learnings = ""
    · refine ⟨pyStrip t, ?_⟩
      rw [hcl, if_pos hne, hne, String.empty_append]
    · refine ⟨"\n\n--- Compression from " ++ date ++ " ---\n" ++ pyStrip t, ?_⟩
      rw [hcl, if_neg hne]
      simp [String.append_assoc]
  · intro hne
    rw [hcl, if_neg hne]
  · intro hne
    rw [hcl, if_pos hne]
  · intro h2 oracle2 date2 now2 t2 hcl2 hge2 ho2
    have hcl2e := compress_learnings_cl_eq h2 oracle2 date2 now2 t2 hge2 ho2
    obtain ⟨pre, hpre⟩ := hend
    by_cases hne2 : h2.compressed_learnings = ""
    · have h0 : pre ++ pyStrip t = "" := by rw [← hpre, ← hcl2]; exact hne2
      have hlen : (pre ++ pyStrip t).length = 0 := by rw [h0]; rfl
      have ht : pyStrip t = "" := by
        rw [String.length_append] at hlen
        have : (pyStrip t).length = 0 := by omega
        cases ht' : pyStrip t with
        | mk data =>
          rw [ht'] at this
          cases data with
          | nil => rfl
          | cons c cs => simp [String.length] at this
      refine ⟨"", "", "", ?_⟩
      rw [hcl2e, if_pos hne2, ht]
      simp [String.empty_append, String.append_empty]
    · refine ⟨pre, "\n\n--- Compression from " ++ date2 ++ " ---\n", "", ?_⟩
      rw [hcl2e, if_neg hne2, hcl2, hpre]
      simp [String.append_assoc, String.append_empty]

/-- C6 witness.  Two concrete successful compressions: the first (from
empty learnings) yields ONE, a second ledger carrying that text yields a
value containing ONE strictly before TWO. -/
theorem compress_learnings_append_monotone_witness :
    (∃ rest, (compress_learnings (demoLedger 100) (fun _ => Except.ok "ONE")
        "D1" "N1").history.compressed_learnings
      = (demoLedger 100).compressed_learnings ++ rest)
    ∧ (∃ u v w, (compress_learnings
          ⟨[], demoRejected 100, "ONE", "u"⟩ (fun _ => Except.ok "TWO")
          "D2" "N2").history.compressed_learnings
        = u ++ pyStrip "ONE" ++ v ++ pyStrip "TWO" ++ w) :=
  ⟨(compress_learnings_append_monotone (demoLedger 100) (fun _ => Except.ok "ONE")
      "D1" "N1" "ONE" (by simp [demoLedger, demoRejected]) rfl).1,
   (compress_learnings_append_monotone (demoLedger 100) (fun _ => Except.ok "ONE")
      "D1" "N1" "ONE" (by simp [demoLedger, demoRejected]) rfl).2.2.2
     ⟨[], demoRejected 100, "ONE", "u"⟩ (fun _ => Except.ok "TWO") "D2" "N2" "TWO"
     (by rfl) (by simp [demoRejected]) rfl⟩


/-- C7.  When the oracle response text contains no opening brace or no
closing brace, or the substring from the first opening brace to one past
the last closing brace fails to parse as JSON, the iteration returns None
and the ledger is completely unmodified - approved_ideas, rejected_ideas,
compressed_learnings and last_updated all keep their values and
save_history never runs. -/
theorem generate_and_evaluate_idea_malformed (h : Ledger) (text : List Char)
    (parse : List Char → Option Json) (citations : List Json)
    (compressOracle : String → Except String String) (ts date now : String)
    (hbad : pyFind text lbrace = -1 ∨ pyRFind text rbrace + 1 = 0
      ∨ parse (pySlice text (pyFind text lbrace).toNat
          (pyRFind text rbrace + 1).toNat) = none) :
    generate_and_evaluate_idea h text parse citations compressOracle ts date now
      = ⟨none, h, 0⟩ := by
  by_cases hif : pyFind text lbrace = -1 ∨ pyRFind text rbrace + 1 = 0
  · simp only [generate_and_evaluate_idea]
    rw [if_pos hif]
  · have hparse : parse (pySlice text (pyFind text lbrace).toNat
        (pyRFind text rbrace + 1).toNat) = none := by
      rcases hbad with h1 | h2 | h3
      · exact absurd (Or.inl h1) hif
      · exact absurd (Or.inr h2) hif
      · exact h3
    simp only [generate_and_evaluate_idea]
    rw [if_neg hif, hparse]

/-- C7 witness.  A response with no brace at all leaves a concrete ledger
untouched, returns None, and saves nothing. -/
theorem generate_and_evaluate_idea_malformed_witness :
    generate_and_evaluate_idea (demoLedger 0) "no json here".toList (fun _ => none)
      [] (fun _ => Except.error "E") "T" "D" "N" = ⟨none, demoLedger 0, 0⟩ :=
  generate_and_evaluate_idea_malformed (demoLedger 0) "no json here".toList
    (fun _ => none) [] (fun _ => Except.error "E") "T" "D" "N" (Or.inl (by decide))

/-- C3.  save_history is not atomic: opening the ledger file with mode w
truncates it before json.dump streams any data, so an I/O error at that
instant leaves the file empty - a state that is neither the previous
fully-parseable content (here the serialization of a valid ledger saved at
t0) nor the new serialization, and is not parseable JSON.  The spec
requires write-and-rename atomicity; the code writes in place. -/
theorem save_history_not_atomic :
    save_history_interrupted (demoLedger 0) "t1" 0 = ""
    ∧ save_history_interrupted (demoLedger 0) "t1" 0 ≠ (save_history (demoLedger 0) "t0").2
    ∧ save_history_interrupted (demoLedger 0) "t1" 0 ≠ (save_history (demoLedger 0) "t1").2 := by
  refine ⟨rfl, ?_, ?_⟩ <;> decide

end Intern
